import Mathlib

/-!
Verification of the `ApifyKVStoreWidget.execute` adapter (src/apify_kv.py).

The adapter is shallowly embedded: the remote Apify client, the process
environment and the datetime library are external collaborators, modelled as
oracle functions packaged in a `World`.  A call that may raise a Python
exception is modelled as returning `Except PyExc α`; the adapter's outer
`try/except Exception` handler becomes the `match` in `execute`, and the inner
`except (ValueError, TypeError)` around the date conversion becomes the
`match` in `dateOrSentinel`.  Python-level primitives used by the code
(`str.isdigit`, `int(...)`, `str.lower`, string comparison used by
`list.sort`, slicing `keys[:n]`) are embedded over `String.data` with Python's
semantics.
-/

namespace ApifyKV

/-- Python string comparison (`<`) on the underlying character lists:
lexicographic by Unicode code point, a proper prefix is smaller. -/
def pyCharsLt : List Char → List Char → Bool
  | [], [] => false
  | [], _ :: _ => true
  | _ :: _, [] => false
  | a :: as, b :: bs =>
    if a.toNat < b.toNat then true
    else if b.toNat < a.toNat then false
    else pyCharsLt as bs

/-- Python `a < b` on strings. -/
def pyStrLt (a b : String) : Bool := pyCharsLt a.data b.data

/-- Python `str.lower()`.  For the ASCII operation names compared by the code
this agrees with `Char.toLower` character-wise. -/
def pyLower (s : String) : String := ⟨s.data.map Char.toLower⟩

/-- A character accepted by Python `str.isdigit`.  Besides the ASCII decimal
digits, Python accepts further Unicode digit characters; the superscript
digits `¹`, `²`, `³` are included here as documented representatives of the
characters for which `str.isdigit` is true but `int(...)` fails.  (Characters
outside this set are treated as non-digits; no claim depends on the behaviour
of other exotic digit characters.) -/
def pyCharIsDigit (c : Char) : Bool :=
  c.isDigit || c = '¹' || c = '²' || c = '³'

/-- Python `s.isdigit()`: non-empty and every character is a digit. -/
def pyIsDigit (s : String) : Bool :=
  !s.data.isEmpty && s.data.all pyCharIsDigit

/-- Value of an all-ASCII-digit string read in base 10 (what `int(s)`
returns on such strings). -/
def digitsToNat (s : String) : Nat :=
  s.data.foldl (fun n c => 10 * n + (c.toNat - 48)) 0

/-- A Python exception, to the granularity the adapter distinguishes:
the inner handler catches exactly `ValueError` and `TypeError`; the outer
handler catches everything. -/
inductive PyExc where
  | valueError : String → PyExc
  | typeError : String → PyExc
  | overflowError : String → PyExc
  | otherError : String → PyExc
deriving DecidableEq

/-- The description of an exception used in the failure message: models the
Python expression `repr(e)` that the source interpolates after `操作失败: `. -/
def PyExc.toRepr : PyExc → String
  | .valueError m => "ValueError(" ++ m ++ ")"
  | .typeError m => "TypeError(" ++ m ++ ")"
  | .overflowError m => "OverflowError(" ++ m ++ ")"
  | .otherError m => "Exception(" ++ m ++ ")"

/-- Python `int(s)` on the strings this adapter feeds it (strings that passed
`isdigit`): succeeds exactly on non-empty all-ASCII-digit strings, raises
`ValueError` otherwise (e.g. on `"²"`, which passes `isdigit`). -/
def pyInt (s : String) : Except PyExc Int :=
  if !s.data.isEmpty && s.data.all Char.isDigit then .ok (digitsToNat s)
  else .error (.valueError ("invalid literal for int with base 10: " ++ s))

/-- Python truthiness test `not x` for an optional string:
true on `None` and on the empty string. -/
def pyFalsy : Option String → Bool
  | none => true
  | some s => s == ""

/-- The adapter's input schema (`InputsSchema`): `value` may be `None`. -/
structure Config where
  operation : String
  store_name : String
  value : Option String
  max_items : Int
deriving DecidableEq

/-- The adapter's output (`OutputsSchema` / the returned dict). -/
structure Result where
  success : Bool
  message : String
  data : List String
  dates : List String
deriving DecidableEq

/-- The remote Apify client, as the four operations the adapter uses.
Each may raise.  `getOrCreate` returns the store id; `listKeys` returns the
`"key"` fields of `list_keys()["items"]`; `getRecord` returns `none` when the
record is falsy/absent, `some none` when the record lacks a `"value"` field,
and `some (some v)` when it has value `v`. -/
structure Client where
  getOrCreate : String → Except PyExc String
  setRecord : String → String → String → Except PyExc Unit
  listKeys : String → Except PyExc (List String)
  getRecord : String → String → Except PyExc (Option (Option String))

/-- The external collaborators of one `execute` call: the environment
variable (`os.environ.get("APIFY_API_KEY")`), the remote client, the clock
(`int(time.time())`, `datetime.now().strftime(...)`) and the timestamp
formatter `datetime.fromtimestamp(t).strftime("%Y-%m-%d %H:%M:%S")`,
which may raise. -/
structure World where
  apiKey : Option String
  client : Client
  timeNow : Nat
  nowDate : String
  fromtimestamp : Int → Except PyExc String

def msgMissingKey : String := "缺少APIFY_API_KEY环境变量，请设置后再试"

def msgNeedValue : String := "上传操作需要提供值"

def msgUploaded (timestamp : String) : String := "成功上传数据，键为 " ++ timestamp

def msgGot (n : Nat) : String := "成功获取最新的 " ++ toString n ++ " 条记录"

def msgUnsupported (op : String) : String := "不支持的操作类型: " ++ op

def msgFailed (e : PyExc) : String := "操作失败: " ++ e.toRepr

def sentinelDate : String := "未知日期"

/-- Date string of one key: `datetime.fromtimestamp(int(key))` formatted. -/
def keyDate (w : World) (k : String) : Except PyExc String :=
  match pyInt k with
  | .error e => .error e
  | .ok t => w.fromtimestamp t

/-- The inner `try`: convert the key, substituting `"未知日期"` when the
conversion raises `ValueError` or `TypeError`; any other exception
propagates (to the outer handler). -/
def dateOrSentinel (w : World) (k : String) : Except PyExc String :=
  match keyDate w k with
  | .ok d => .ok d
  | .error (.valueError _) => .ok sentinelDate
  | .error (.typeError _) => .ok sentinelDate
  | .error e => .error e

/-- The download loop (`for key in latest_keys`): fetch each record, keep the
value and the (possibly sentinel) date of records that are truthy and have a
`"value"` field, skip the others. -/
def downloadRecords (w : World) (sid : String) : List String → Except PyExc (List String × List String)
  | [] => .ok ([], [])
  | k :: ks =>
    match w.client.getRecord sid k with
    | .error e => .error e
    | .ok record =>
      match record with
      | some (some v) =>
        match dateOrSentinel w k with
        | .error e => .error e
        | .ok d =>
          match downloadRecords w sid ks with
          | .error e => .error e
          | .ok (vs, ds) => .ok (v :: vs, d :: ds)
      | _ => downloadRecords w sid ks

/-- Python slice `l[:n]`: for `n ≥ 0` the first `n` elements, for `n < 0`
everything but the last `|n|` elements (clamped at the ends). -/
def pySliceTo {α : Type} (n : Int) (l : List α) : List α :=
  l.take (if 0 ≤ n then n.toNat else l.length - (-n).toNat)

/-- Insert a key into a descending-sorted list of keys. -/
def insertDesc (k : String) : List String → List String
  | [] => [k]
  | x :: xs => if pyStrLt k x then x :: insertDesc k xs else k :: x :: xs

/-- Line 93, `keys.sort(reverse=True)`: the unique permutation of the keys
that is sorted descending in Python string order.  (Python's stable mergesort returns
the same list: the order is total and equal strings are indistinguishable, so
the descending-sorted permutation is unique as a list of strings.) -/
def sortDescend : List String → List String
  | [] => []
  | k :: ks => insertDesc k (sortDescend ks)

/-- Line 90: the listed keys that pass `isdigit`. -/
def digitKeys (items : List String) : List String := items.filter pyIsDigit

/-- Lines 93–96: sort descending and slice to `max_items`. -/
def selectedKeys (items : List String) (n : Int) : List String :=
  pySliceTo n (sortDescend (digitKeys items))

/-- The body of `execute` inside the outer `try`. -/
def executeBody (w : World) (c : Config) : Except PyExc Result :=
  if pyFalsy w.apiKey then
    .ok ⟨false, msgMissingKey, [], []⟩
  else
    match w.client.getOrCreate c.store_name with
    | .error e => .error e
    | .ok store_id =>
      if pyLower c.operation = "upload" then
        if pyFalsy c.value then
          .ok ⟨false, msgNeedValue, [], []⟩
        else
          match w.client.setRecord store_id (toString w.timeNow) (c.value.getD "") with
          | .error e => .error e
          | .ok _ =>
            .ok ⟨true, msgUploaded (toString w.timeNow), [c.value.getD ""], [w.nowDate]⟩
      else if pyLower c.operation = "download" then
        match w.client.listKeys store_id with
        | .error e => .error e
        | .ok items =>
          match downloadRecords w store_id (selectedKeys items c.max_items) with
          | .error e => .error e
          | .ok (vals, dates) =>
            .ok ⟨true, msgGot vals.length, vals, dates⟩
      else
        .ok ⟨false, msgUnsupported c.operation, [], []⟩

/-- The full `execute`: the body wrapped in the top-level
`try/except Exception` handler, which converts any exception into a failure
`Result`. -/
def execute (w : World) (c : Config) : Result :=
  match executeBody w c with
  | .ok r => r
  | .error e => ⟨false, msgFailed e, [], []⟩

/-- The value the download loop keeps for a key (`record["value"]` when the
record is truthy and has one), as an observation of the oracle client. -/
def recordValue (w : World) (sid k : String) : Option String :=
  match w.client.getRecord sid k with
  | .ok (some (some v)) => some v
  | _ => none

/-- Whether the download loop keeps a record for this key. -/
def hasValue (w : World) (sid k : String) : Bool := (recordValue w sid k).isSome

/-- The date string the loop records for a kept key: the formatted timestamp,
or the sentinel when the conversion raises. -/
def dateOf (w : World) (k : String) : String :=
  match keyDate w k with
  | .ok d => d
  | .error _ => sentinelDate

/-- Whether the date conversion of this key either succeeds or raises an
exception the inner handler catches (`ValueError`/`TypeError`). -/
def dateCaught (w : World) (k : String) : Bool :=
  match keyDate w k with
  | .ok _ => true
  | .error (.valueError _) => true
  | .error (.typeError _) => true
  | .error _ => false

/-- The data list a clean download returns. -/
def valsOf (w : World) (sid : String) (items : List String) (n : Int) : List String :=
  (selectedKeys items n).filterMap (recordValue w sid)

/-- The dates list a clean download returns. -/
def datesOf (w : World) (sid : String) (items : List String) (n : Int) : List String :=
  ((selectedKeys items n).filter (fun k => hasValue w sid k)).map (dateOf w)

/-- A concrete remote store for witnesses: a fixed store id and an
association list from key to the shape `getRecord` returns for it. -/
def mkClient (sid : String) (entries : List (String × Option (Option String))) : Client where
  getOrCreate := fun _ => .ok sid
  setRecord := fun _ _ _ => .ok ()
  listKeys := fun _ => .ok (entries.map Prod.fst)
  getRecord := fun _ k => .ok (((entries.find? (fun p => p.fst == k)).map Prod.snd).getD none)

/-- A remote client whose every call raises. -/
def errClient : Client where
  getOrCreate := fun _ => .error (.otherError "boom")
  setRecord := fun _ _ _ => .error (.otherError "boom")
  listKeys := fun _ => .error (.otherError "boom")
  getRecord := fun _ _ => .error (.otherError "boom")

/-- A timestamp formatter for witnesses that always succeeds. -/
def okFmt : Int → Except PyExc String := fun t => .ok ("ts " ++ toString t)

/-- A concrete world for witnesses. -/
def mkWorld (entries : List (String × Option (Option String))) : World where
  apiKey := some "token"
  client := mkClient "sid0" entries
  timeNow := 1700000000
  nowDate := "2023-11-14 22:13:20"
  fromtimestamp := okFmt

/-! ### Order facts about Python string comparison -/

theorem charToNat_inj {a b : Char} (h : a.toNat = b.toNat) : a = b :=
  Char.eq_of_val_eq (UInt32.toNat.inj h)

theorem pyCharsLt_irrefl (l : List Char) : pyCharsLt l l = false := by
  induction l with
  | nil => rfl
  | cons a as ih => simp [pyCharsLt, ih]

theorem pyCharsLt_trans {a b c : List Char} (h1 : pyCharsLt a b = true)
    (h2 : pyCharsLt b c = true) : pyCharsLt a c = true := by
  induction a generalizing b c with
  | nil =>
    cases b with
    | nil => simp [pyCharsLt] at h1
    | cons y ys =>
      cases c with
      | nil => simp [pyCharsLt] at h2
      | cons z zs => simp [pyCharsLt]
  | cons x xs ih =>
    cases b with
    | nil => simp [pyCharsLt] at h1
    | cons y ys =>
      cases c with
      | nil => simp [pyCharsLt] at h2
      | cons z zs =>
        simp only [pyCharsLt] at h1 h2 ⊢
        split_ifs at h1 h2 ⊢ <;> first | rfl | omega | exact ih h1 h2

theorem pyCharsLt_antisymm {a b : List Char} (h1 : pyCharsLt a b = false)
    (h2 : pyCharsLt b a = false) : a = b := by
  induction a generalizing b with
  | nil =>
    cases b with
    | nil => rfl
    | cons y ys => simp [pyCharsLt] at h1
  | cons x xs ih =>
    cases b with
    | nil => simp [pyCharsLt] at h2
    | cons y ys =>
      simp only [pyCharsLt] at h1 h2
      split_ifs at h1 h2
      have hxy : x = y := charToNat_inj (by omega)
      rw [hxy, ih h1 h2]

theorem pyStrLt_irrefl (a : String) : pyStrLt a a = false :=
  pyCharsLt_irrefl a.data

theorem pyStrLt_trans {a b c : String} (h1 : pyStrLt a b = true)
    (h2 : pyStrLt b c = true) : pyStrLt a c = true :=
  pyCharsLt_trans h1 h2

theorem pyStrLt_antisymm {a b : String} (h1 : pyStrLt a b = false)
    (h2 : pyStrLt b a = false) : a = b :=
  String.ext (pyCharsLt_antisymm h1 h2)

theorem pyStrLt_asymm {a b : String} (h : pyStrLt a b = true) :
    pyStrLt b a = false := by
  cases hba : pyStrLt b a with
  | false => rfl
  | true =>
    have := pyStrLt_trans h hba
    rw [pyStrLt_irrefl] at this
    exact absurd this (by decide)

/-- The descending order relation the sorted key list satisfies:
`a` is not below `b` in Python string order. -/
def keyGe (a b : String) : Prop := pyStrLt a b = false

theorem keyGe_trans {a b c : String} (h1 : keyGe a b) (h2 : keyGe b c) :
    keyGe a c := by
  unfold keyGe at *
  cases hba : pyStrLt b a with
  | false => rw [pyStrLt_antisymm h1 hba]; exact h2
  | true =>
    cases hcb : pyStrLt c b with
    | false => rw [← pyStrLt_antisymm h2 hcb]; exact h1
    | true =>
      cases hac : pyStrLt a c with
      | false => rfl
      | true =>
        have := pyStrLt_trans hac hcb
        rw [h1] at this
        exact absurd this (by decide)

/-! ### The descending key sort -/

theorem insertDesc_perm (k : String) (l : List String) :
    (insertDesc k l).Perm (k :: l) := by
  induction l with
  | nil => rfl
  | cons x xs ih =>
    unfold insertDesc
    split
    · exact ((ih.cons x).trans (List.Perm.swap k x xs))
    · rfl

theorem sortDescend_perm (l : List String) : (sortDescend l).Perm l := by
  induction l with
  | nil => rfl
  | cons k ks ih => exact (insertDesc_perm k (sortDescend ks)).trans (ih.cons k)

theorem sortDescend_length (l : List String) :
    (sortDescend l).length = l.length :=
  (sortDescend_perm l).length_eq

theorem mem_sortDescend {x : String} {l : List String} (h : x ∈ sortDescend l) :
    x ∈ l :=
  (sortDescend_perm l).mem_iff.mp h

theorem pairwise_insertDesc {k : String} {l : List String}
    (h : l.Pairwise keyGe) : (insertDesc k l).Pairwise keyGe := by
  induction l with
  | nil => simp [insertDesc]
  | cons x xs ih =>
    rw [List.pairwise_cons] at h
    obtain ⟨hx, hxs⟩ := h
    unfold insertDesc
    split
    · rename_i hkx
      rw [List.pairwise_cons]
      refine ⟨?_, ih hxs⟩
      intro y hy
      rcases List.mem_cons.mp ((insertDesc_perm k xs).mem_iff.mp hy) with hy | hy
      · rw [hy]
        exact pyStrLt_asymm hkx
      · exact hx y hy
    · rename_i hkx
      rw [Bool.not_eq_true] at hkx
      rw [List.pairwise_cons]
      refine ⟨?_, List.pairwise_cons.mpr ⟨hx, hxs⟩⟩
      intro y hy
      rcases List.mem_cons.mp hy with hy | hy
      · rw [hy]; exact hkx
      · exact keyGe_trans hkx (hx y hy)

theorem pairwise_sortDescend (l : List String) :
    (sortDescend l).Pairwise keyGe := by
  induction l with
  | nil => exact List.Pairwise.nil
  | cons k ks ih => exact pairwise_insertDesc ih

theorem pairwise_selectedKeys (items : List String) (n : Int) :
    (selectedKeys items n).Pairwise keyGe := by
  unfold selectedKeys pySliceTo
  exact List.Pairwise.sublist (List.take_sublist _ _)
    (pairwise_sortDescend (digitKeys items))

theorem mem_selectedKeys_isdigit {items : List String} {n : Int} {k : String}
    (h : k ∈ selectedKeys items n) : pyIsDigit k = true := by
  unfold selectedKeys pySliceTo at h
  have h3 : k ∈ digitKeys items :=
    mem_sortDescend ((List.take_sublist _ _).subset h)
  exact (List.mem_filter.mp h3).2

/-! ### The download loop -/

theorem downloadRecords_lengths {w : World} {sid : String} {ks vs ds : List String}
    (h : downloadRecords w sid ks = .ok (vs, ds)) : vs.length = ds.length := by
  induction ks generalizing vs ds with
  | nil =>
    simp only [downloadRecords, Except.ok.injEq, Prod.mk.injEq] at h
    rw [← h.1, ← h.2]
  | cons k ks ih =>
    simp only [downloadRecords] at h
    cases hg : w.client.getRecord sid k with
    | error e => rw [hg] at h; simp at h
    | ok record =>
      rw [hg] at h
      match record with
      | none => exact ih h
      | some none => exact ih h
      | some (some v) =>
        cases hd : dateOrSentinel w k with
        | error e => rw [hd] at h; simp at h
        | ok d =>
          rw [hd] at h
          cases hr : downloadRecords w sid ks with
          | error e => rw [hr] at h; simp at h
          | ok p =>
            rw [hr] at h
            obtain ⟨vs2, ds2⟩ := p
            simp only [Except.ok.injEq, Prod.mk.injEq] at h
            rw [← h.1, ← h.2]
            simp [ih hr]

theorem dateOrSentinel_of_caught {w : World} {k : String}
    (h : dateCaught w k = true) : dateOrSentinel w k = .ok (dateOf w k) := by
  unfold dateCaught at h
  unfold dateOrSentinel dateOf
  cases hkd : keyDate w k with
  | ok d => rfl
  | error e => rw [hkd] at h; cases e <;> simp_all

theorem downloadRecords_clean {w : World} {sid : String} {ks : List String}
    (h1 : ∀ k ∈ ks, ∃ r, w.client.getRecord sid k = .ok r)
    (h2 : ∀ k ∈ ks, hasValue w sid k = true → dateCaught w k = true) :
    downloadRecords w sid ks =
      .ok (ks.filterMap (recordValue w sid),
           (ks.filter (fun k => hasValue w sid k)).map (dateOf w)) := by
  induction ks with
  | nil => rfl
  | cons k ks ih =>
    obtain ⟨r, hr⟩ := h1 k (List.mem_cons_self k ks)
    have ih2 := ih (fun x hx => h1 x (List.mem_cons_of_mem k hx))
      (fun x hx => h2 x (List.mem_cons_of_mem k hx))
    match r with
    | none =>
      have hv : recordValue w sid k = none := by simp [recordValue, hr]
      have hhv : hasValue w sid k = false := by simp [hasValue, hv]
      simp [downloadRecords, hr, ih2, hv, hhv]
    | some none =>
      have hv : recordValue w sid k = none := by simp [recordValue, hr]
      have hhv : hasValue w sid k = false := by simp [hasValue, hv]
      simp [downloadRecords, hr, ih2, hv, hhv]
    | some (some v) =>
      have hv : recordValue w sid k = some v := by simp [recordValue, hr]
      have hhv : hasValue w sid k = true := by simp [hasValue, hv]
      have hd := dateOrSentinel_of_caught (h2 k (List.mem_cons_self k ks) hhv)
      simp [downloadRecords, hr, hd, ih2, hv, hhv]

/-! ### Characterizations of `execute` -/

theorem execute_download {w : World} {c : Config} {sid : String}
    {items : List String}
    (hkey : pyFalsy w.apiKey = false)
    (hop : pyLower c.operation = "download")
    (hsid : w.client.getOrCreate c.store_name = .ok sid)
    (hlist : w.client.listKeys sid = .ok items)
    (h1 : ∀ k ∈ selectedKeys items c.max_items,
      ∃ r, w.client.getRecord sid k = .ok r)
    (h2 : ∀ k ∈ selectedKeys items c.max_items,
      hasValue w sid k = true → dateCaught w k = true) :
    execute w c =
      ⟨true, msgGot (valsOf w sid items c.max_items).length,
        valsOf w sid items c.max_items, datesOf w sid items c.max_items⟩ := by
  have hdr := downloadRecords_clean h1 h2
  have hne : ¬ (pyLower c.operation = "upload") := by
    rw [hop]; decide
  unfold execute executeBody
  rw [hkey, hsid]
  simp only [Bool.false_eq_true, if_false, if_neg hne, if_pos hop]
  rw [hlist]
  simp only []
  rw [hdr]
  rfl

theorem execute_upload {w : World} {c : Config} {sid : String} {v : String}
    (hkey : pyFalsy w.apiKey = false)
    (hop : pyLower c.operation = "upload")
    (hsid : w.client.getOrCreate c.store_name = .ok sid)
    (hval : c.value = some v)
    (hv : v ≠ "")
    (hset : w.client.setRecord sid (toString w.timeNow) v = .ok ()) :
    execute w c =
      ⟨true, msgUploaded (toString w.timeNow), [v], [w.nowDate]⟩ := by
  have hfal : pyFalsy c.value = false := by
    rw [hval]; simp [pyFalsy, hv]
  unfold execute executeBody
  rw [hkey, hsid]
  simp only [Bool.false_eq_true, if_false, if_pos hop, hfal]
  rw [hval]
  simp only [Option.getD_some]
  rw [hset]

/-! ### Shapes of all results of `execute` -/

theorem str_append_ne_empty (s t : String) (h : s.data ≠ []) : s ++ t ≠ "" := by
  intro heq
  apply h
  have h2 : (s ++ t).data = s.data ++ t.data := String.data_append s t
  rw [heq] at h2
  exact (List.append_eq_nil.mp h2.symm).1

theorem msgUnsupported_ne_empty (op : String) : msgUnsupported op ≠ "" :=
  str_append_ne_empty _ _ (by decide)

theorem msgFailed_ne_empty (e : PyExc) : msgFailed e ≠ "" :=
  str_append_ne_empty _ _ (by decide)

theorem executeBody_ok_shape {w : World} {c : Config} {r : Result}
    (h : executeBody w c = .ok r) :
    r = ⟨false, msgMissingKey, [], []⟩ ∨
    r = ⟨false, msgNeedValue, [], []⟩ ∨
    r = ⟨false, msgUnsupported c.operation, [], []⟩ ∨
    r = ⟨true, msgUploaded (toString w.timeNow), [c.value.getD ""], [w.nowDate]⟩ ∨
    (∃ vals dates, vals.length = dates.length ∧
      r = ⟨true, msgGot vals.length, vals, dates⟩) := by
  unfold executeBody at h
  cases hkey : pyFalsy w.apiKey with
  | true =>
    rw [hkey] at h
    simp only [if_true] at h
    injection h with h
    exact Or.inl h.symm
  | false =>
    rw [hkey] at h
    simp only [Bool.false_eq_true, if_false] at h
    cases hg : w.client.getOrCreate c.store_name with
    | error e => rw [hg] at h; simp at h
    | ok sid =>
      rw [hg] at h
      simp only [] at h
      by_cases hup : pyLower c.operation = "upload"
      · rw [if_pos hup] at h
        cases hfal : pyFalsy c.value with
        | true =>
          rw [hfal] at h
          simp only [if_true] at h
          injection h with h
          exact Or.inr (Or.inl h.symm)
        | false =>
          rw [hfal] at h
          simp only [Bool.false_eq_true, if_false] at h
          cases hset : w.client.setRecord sid (toString w.timeNow) (c.value.getD "") with
          | error e => rw [hset] at h; simp at h
          | ok u =>
            rw [hset] at h
            simp only [] at h
            injection h with h
            exact Or.inr (Or.inr (Or.inr (Or.inl h.symm)))
      · rw [if_neg hup] at h
        by_cases hdl : pyLower c.operation = "download"
        · rw [if_pos hdl] at h
          cases hlist : w.client.listKeys sid with
          | error e => rw [hlist] at h; simp at h
          | ok items =>
            rw [hlist] at h
            simp only [] at h
            cases hrec : downloadRecords w sid (selectedKeys items c.max_items) with
            | error e => rw [hrec] at h; simp at h
            | ok p =>
              rw [hrec] at h
              obtain ⟨vals, dates⟩ := p
              simp only [] at h
              injection h with h
              exact Or.inr (Or.inr (Or.inr (Or.inr
                ⟨vals, dates, downloadRecords_lengths hrec, h.symm⟩)))
        · rw [if_neg hdl] at h
          injection h with h
          exact Or.inr (Or.inr (Or.inl h.symm))

theorem execute_shape (w : World) (c : Config) :
    (∃ e, executeBody w c = .error e ∧
      execute w c = ⟨false, msgFailed e, [], []⟩) ∨
    executeBody w c = .ok (execute w c) := by
  unfold execute
  cases h : executeBody w c with
  | ok r => exact Or.inr rfl
  | error e => exact Or.inl ⟨e, rfl, rfl⟩

theorem execute_failure_shape {w : World} {c : Config}
    (h : (execute w c).success = false) :
    (execute w c).data = [] ∧ (execute w c).dates = [] ∧
    ((execute w c).message = msgMissingKey ∨
     (execute w c).message = msgNeedValue ∨
     (execute w c).message = msgUnsupported c.operation ∨
     ∃ e, (execute w c).message = msgFailed e) := by
  rcases execute_shape w c with ⟨e, _, he⟩ | hok
  · rw [he]
    exact ⟨rfl, rfl, Or.inr (Or.inr (Or.inr ⟨e, rfl⟩))⟩
  · rcases executeBody_ok_shape hok with hr | hr | hr | hr | ⟨vals, dates, _, hr⟩ <;>
      rw [← hok] at *
    · rw [hr]; exact ⟨rfl, rfl, Or.inl rfl⟩
    · rw [hr]; exact ⟨rfl, rfl, Or.inr (Or.inl rfl)⟩
    · rw [hr]; exact ⟨rfl, rfl, Or.inr (Or.inr (Or.inl rfl))⟩
    · rw [hr] at h; simp at h
    · rw [hr] at h; simp at h

theorem execute_failure_message_ne_empty {w : World} {c : Config}
    (h : (execute w c).success = false) : (execute w c).message ≠ "" := by
  rcases (execute_failure_shape h).2.2 with hm | hm | hm | ⟨e, hm⟩ <;> rw [hm]
  · decide
  · decide
  · exact msgUnsupported_ne_empty c.operation
  · exact msgFailed_ne_empty e

theorem filterMap_eq_filter_map {α β : Type} (f : α → Option β) (d : β)
    (l : List α) :
    l.filterMap f =
      (l.filter (fun a => (f a).isSome)).map (fun a => (f a).getD d) := by
  induction l with
  | nil => rfl
  | cons a l ih => cases hf : f a <;> simp [List.filterMap_cons, hf, ih]

/-! ### Concrete worlds used by witnesses and counterexamples -/

def wErr : World := { mkWorld [] with client := errClient }

def wNoKey : World := { mkWorld [] with apiKey := none }

def cDl (n : Int) : Config := ⟨"download", "test-store", none, n⟩

def cUp (v : Option String) : Config := ⟨"upload", "test-store", v, 10⟩

def wPair : World :=
  mkWorld [("999", some (some "v999")), ("1000", some (some "v1000"))]

def wSpecEx : World :=
  mkWorld [("1000", some (some "v1000")), ("2000", some (some "v2000")),
    ("1500", some (some "v1500"))]

def wSuper : World :=
  mkWorld [("abc", some (some "x")), ("²", some (some "y")),
    ("1000", some (some "z"))]

def wSkip : World :=
  mkWorld [("3", none), ("2", some none), ("1", some (some "x"))]

def wOverflow : World :=
  { mkWorld [("99999999999999999999", some (some "v"))] with
    fromtimestamp := fun _ =>
      .error (.overflowError "timestamp out of range") }

/-! ### The claims -/

/-- Claim C1: for every request (any operation, store name, value,
`max_items`) and any exception raised by the remote client or the body's own
steps, `execute` never lets the exception propagate: an exception `e` in the
body is converted into the failure result with message `msgFailed e`, and
every failure result (`success = false`) carries empty `data` and `dates`
and a non-empty descriptive message. -/
theorem claim_C1 (w : World) (c : Config) :
    (∀ e, executeBody w c = .error e →
      execute w c = ⟨false, msgFailed e, [], []⟩) ∧
    ((execute w c).success = false →
      (execute w c).data = [] ∧ (execute w c).dates = [] ∧
      (execute w c).message ≠ "") := by
  constructor
  · intro e he
    unfold execute
    rw [he]
  · intro h
    exact ⟨(execute_failure_shape h).1, (execute_failure_shape h).2.1,
      execute_failure_message_ne_empty h⟩

/-- Witness for C1: a client whose every remote call raises is converted into
the failure result, nothing propagates. -/
theorem claim_C1_witness :
    execute wErr (cDl 10) = ⟨false, msgFailed (.otherError "boom"), [], []⟩ :=
  (claim_C1 wErr (cDl 10)).1 (.otherError "boom") rfl

/-- Claim C5: for every request whose world has no `APIFY_API_KEY` in the
environment, `execute` returns `success = false` with the message naming the
missing credential and empty `data`/`dates` — for any operation — and the
result is the same whatever the remote client would do (no remote call can
influence it). -/
theorem claim_C5 (w : World) (c : Config) (h : w.apiKey = none) :
    execute w c = ⟨false, msgMissingKey, [], []⟩ ∧
    ∀ cl : Client, execute { w with client := cl } c =
      ⟨false, msgMissingKey, [], []⟩ := by
  have key : ∀ u : World, u.apiKey = none →
      execute u c = ⟨false, msgMissingKey, [], []⟩ := by
    intro u hu
    unfold execute executeBody
    rw [hu]
    rfl
  exact ⟨key w h, fun cl => key _ h⟩

/-- Witness for C5: with the credential absent, both an upload and a download
request return the missing-credential failure. -/
theorem claim_C5_witness :
    execute wNoKey (cUp (some "v")) = ⟨false, msgMissingKey, [], []⟩ ∧
    execute wNoKey (cDl 10) = ⟨false, msgMissingKey, [], []⟩ :=
  ⟨(claim_C5 wNoKey (cUp (some "v")) rfl).1,
   (claim_C5 wNoKey (cDl 10) rfl).1⟩

/-- Claim C6: every failure result's message is one of the four fixed
plain-language templates of the source (missing credential, missing upload
value, unsupported operation, or `操作失败: ` followed by the exception's
one-line description) and is never empty; the result surfaces no exception
object or stack trace — it is only these strings. -/
theorem claim_C6 (w : World) (c : Config)
    (h : (execute w c).success = false) :
    ((execute w c).message = msgMissingKey ∨
     (execute w c).message = msgNeedValue ∨
     (execute w c).message = msgUnsupported c.operation ∨
     ∃ e, (execute w c).message = msgFailed e) ∧
    (execute w c).message ≠ "" :=
  ⟨(execute_failure_shape h).2.2, execute_failure_message_ne_empty h⟩

/-- Witness for C6: the failing-client world yields a non-empty
plain-language message. -/
theorem claim_C6_witness : (execute wErr (cDl 10)).message ≠ "" :=
  (claim_C6 wErr (cDl 10) rfl).2

/-- Claim C9: for every upload request whose value is `None` or empty,
`execute` returns `success = false` with empty `data` and `dates`, and the
result does not depend on the remote `set_record` call (it is never
contacted: substituting any function for it leaves the result unchanged). -/
theorem claim_C9 (w : World) (c : Config)
    (hop : pyLower c.operation = "upload")
    (hval : pyFalsy c.value = true) :
    (execute w c).success = false ∧ (execute w c).data = [] ∧
    (execute w c).dates = [] ∧
    ∀ f, execute { w with client := { w.client with setRecord := f } } c =
      execute w c := by
  have hbody : ∀ cl : Client, cl.getOrCreate = w.client.getOrCreate →
      executeBody { w with client := cl } c =
        (if pyFalsy w.apiKey then
          Except.ok ⟨false, msgMissingKey, [], []⟩
        else
          match w.client.getOrCreate c.store_name with
          | .error e => .error e
          | .ok _ => Except.ok ⟨false, msgNeedValue, [], []⟩) := by
    intro cl hcl
    unfold executeBody
    dsimp only
    rw [hcl]
    cases hkey : pyFalsy w.apiKey with
    | true => simp
    | false =>
      simp only [Bool.false_eq_true, if_false]
      cases hg : w.client.getOrCreate c.store_name with
      | error e => rfl
      | ok sid => simp [hop, hval]
  have h1 : executeBody w c =
      (if pyFalsy w.apiKey then
        Except.ok ⟨false, msgMissingKey, [], []⟩
      else
        match w.client.getOrCreate c.store_name with
        | .error e => .error e
        | .ok _ => Except.ok ⟨false, msgNeedValue, [], []⟩) :=
    hbody w.client rfl
  have hshape : (execute w c).success = false ∧ (execute w c).data = [] ∧
      (execute w c).dates = [] := by
    unfold execute
    rw [h1]
    cases pyFalsy w.apiKey
    · cases w.client.getOrCreate c.store_name <;> exact ⟨rfl, rfl, rfl⟩
    · exact ⟨rfl, rfl, rfl⟩
  refine ⟨hshape.1, hshape.2.1, hshape.2.2, ?_⟩
  intro f
  unfold execute
  rw [hbody { w.client with setRecord := f } rfl, h1]

/-- Witness for C9: an upload with `value = None` and an upload with
`value = ""` both fail with empty data. -/
theorem claim_C9_witness :
    ((execute (mkWorld []) (cUp none)).success = false ∧
      (execute (mkWorld []) (cUp none)).data = []) ∧
    ((execute (mkWorld []) (cUp (some ""))).success = false ∧
      (execute (mkWorld []) (cUp (some ""))).dates = []) :=
  ⟨⟨(claim_C9 (mkWorld []) (cUp none) rfl rfl).1,
    (claim_C9 (mkWorld []) (cUp none) rfl rfl).2.1⟩,
   ⟨(claim_C9 (mkWorld []) (cUp (some "")) rfl rfl).1,
    (claim_C9 (mkWorld []) (cUp (some "")) rfl rfl).2.2.1⟩⟩

/-- Counterexample for C2: the claim fails for digit keys of unequal length.
With remote keys `["999", "1000"]` (both all-digits), a download with
`max_items = 2` returns the record for `"999"` first and `"1000"` second,
although `999 < 1000` as timestamps — the most recent write is last, because
`keys.sort(reverse=True)` sorts strings lexicographically, not numerically. -/
theorem claim_C2_counterexample :
    (execute wPair (cDl 2)).data = ["v999", "v1000"] ∧
    digitsToNat "999" < digitsToNat "1000" := by
  constructor
  · decide
  · decide

/-- Claim C2 (amended): for every clean download, the records are returned in
descending Python string (lexicographic) order of their keys — which
coincides with descending numeric/timestamp order for keys of equal length,
such as the ten-digit keys the adapter itself writes; e.g. given remote keys
`["1000", "2000", "1500"]`, a download with `max_items = 2` returns the
records for `"2000"` then `"1500"`. -/
theorem claim_C2 (w : World) (c : Config) (sid : String)
    (items : List String)
    (hkey : pyFalsy w.apiKey = false)
    (hop : pyLower c.operation = "download")
    (hsid : w.client.getOrCreate c.store_name = .ok sid)
    (hlist : w.client.listKeys sid = .ok items)
    (h1 : ∀ k ∈ selectedKeys items c.max_items,
      ∃ r, w.client.getRecord sid k = .ok r)
    (h2 : ∀ k ∈ selectedKeys items c.max_items,
      hasValue w sid k = true → dateCaught w k = true) :
    execute w c =
      ⟨true, msgGot (valsOf w sid items c.max_items).length,
        valsOf w sid items c.max_items, datesOf w sid items c.max_items⟩ ∧
    (selectedKeys items c.max_items).Pairwise keyGe :=
  ⟨execute_download hkey hop hsid hlist h1 h2,
   pairwise_selectedKeys items c.max_items⟩

/-- Witness for C2 (amended): the spec's example keys return the records for
`"2000"` then `"1500"`. -/
theorem claim_C2_witness :
    execute wSpecEx (cDl 2) =
      ⟨true, msgGot 2, ["v2000", "v1500"], ["ts 2000", "ts 1500"]⟩ ∧
    (selectedKeys ["1000", "2000", "1500"] 2).Pairwise keyGe := by
  have h := claim_C2 wSpecEx (cDl 2) "sid0" ["1000", "2000", "1500"]
    rfl rfl rfl rfl (fun k _ => ⟨_, rfl⟩) (by decide)
  exact ⟨h.1.trans (by decide), h.2⟩

/-- Counterexample for C3: the claim fails for negative `max_items`.  With
remote digit keys `["999", "1000"]` and `max_items = -1` (non-positive), the
download returns one record, not zero: the Python slice `keys[:-1]` keeps
everything but the last element. -/
theorem claim_C3_counterexample :
    execute wPair (cDl (-1)) = ⟨true, msgGot 1, ["v999"], ["ts 999"]⟩ ∧
    (cDl (-1)).max_items ≤ 0 := by
  constructor
  · decide
  · decide

/-- Claim C3 (amended): for every clean download with `max_items = N`, the
call succeeds (nothing is thrown), `data` and `dates` each have length at
most the number of all-digit keys in the store; for `N ≥ 0` their length is
also at most `N`, and `N = 0` returns zero records.  A negative `N` does not
throw, but by Python slice semantics it returns all but the last `|N|` of
the digit-key records rather than zero. -/
theorem claim_C3 (w : World) (c : Config) (sid : String)
    (items : List String)
    (hkey : pyFalsy w.apiKey = false)
    (hop : pyLower c.operation = "download")
    (hsid : w.client.getOrCreate c.store_name = .ok sid)
    (hlist : w.client.listKeys sid = .ok items)
    (h1 : ∀ k ∈ selectedKeys items c.max_items,
      ∃ r, w.client.getRecord sid k = .ok r)
    (h2 : ∀ k ∈ selectedKeys items c.max_items,
      hasValue w sid k = true → dateCaught w k = true) :
    (execute w c).success = true ∧
    (execute w c).data.length ≤ (digitKeys items).length ∧
    (execute w c).dates.length ≤ (digitKeys items).length ∧
    (0 ≤ c.max_items → (execute w c).data.length ≤ c.max_items.toNat) ∧
    (c.max_items = 0 → (execute w c).data = [] ∧ (execute w c).dates = []) := by
  rw [execute_download hkey hop hsid hlist h1 h2]
  have hsel : (selectedKeys items c.max_items).length ≤
      (digitKeys items).length := by
    unfold selectedKeys pySliceTo
    rw [← sortDescend_length (digitKeys items)]
    exact le_trans (le_of_eq (List.length_take _ _)) (min_le_right _ _)
  have hv : (valsOf w sid items c.max_items).length ≤
      (selectedKeys items c.max_items).length :=
    List.length_filterMap_le _ _
  have hd : (datesOf w sid items c.max_items).length ≤
      (selectedKeys items c.max_items).length := by
    unfold datesOf
    rw [List.length_map]
    exact List.length_filter_le _ _
  refine ⟨rfl, le_trans hv hsel, le_trans hd hsel, ?_, ?_⟩
  · intro hn
    refine le_trans hv ?_
    unfold selectedKeys pySliceTo
    rw [if_pos hn]
    exact le_trans (le_of_eq (List.length_take _ _)) (min_le_left _ _)
  · intro hn
    have hempty : selectedKeys items c.max_items = [] := by
      unfold selectedKeys pySliceTo
      rw [hn]
      rfl
    constructor
    · show valsOf w sid items c.max_items = []
      unfold valsOf
      rw [hempty]
      rfl
    · show datesOf w sid items c.max_items = []
      unfold datesOf
      rw [hempty]
      rfl

/-- Witness for C3 (amended): with two digit keys and `max_items = 1` the
bounds hold concretely. -/
theorem claim_C3_witness :
    (execute wPair (cDl 1)).success = true ∧
    (execute wPair (cDl 1)).data.length ≤ (digitKeys ["999", "1000"]).length ∧
    (execute wPair (cDl 1)).dates.length ≤ (digitKeys ["999", "1000"]).length ∧
    (0 ≤ (cDl 1).max_items →
      (execute wPair (cDl 1)).data.length ≤ (cDl 1).max_items.toNat) ∧
    ((cDl 1).max_items = 0 →
      (execute wPair (cDl 1)).data = [] ∧ (execute wPair (cDl 1)).dates = []) :=
  claim_C3 wPair (cDl 1) "sid0" ["999", "1000"]
    rfl rfl rfl rfl (fun k _ => ⟨_, rfl⟩) (by decide)

/-- Counterexample for C4: the claim fails for a conversion failure outside
`ValueError`/`TypeError`.  The inner handler catches only those two classes,
but `datetime.fromtimestamp` is documented to raise `OverflowError` for a
timestamp beyond the platform range; an all-digit key large enough to
trigger it makes the whole download fail through the outer handler with
`success = false` — no sentinel is substituted and no other record is
returned. -/
theorem claim_C4_counterexample :
    execute wOverflow (cDl 10) =
      ⟨false, msgFailed (.overflowError "timestamp out of range"), [], []⟩ ∧
    keyDate wOverflow "99999999999999999999" =
      .error (.overflowError "timestamp out of range") ∧
    pyIsDigit "99999999999999999999" = true := by
  refine ⟨?_, ?_, ?_⟩
  · decide
  · rfl
  · decide

/-- Claim C4 (amended): during a clean download in which every selected
record's key-to-date conversion either succeeds or raises an exception the
inner handler catches (`ValueError`/`TypeError` — which covers the
`ValueError` from `int(...)` on an isdigit-true but non-numeric key such as
`"²"`, and the `ValueError` for a timestamp whose year is out of the
datetime range), the call completes with `success = true`, the dates are the
per-key converted values in order, and every key whose conversion raised
gets the sentinel `"未知日期"` at its position instead of failing the call.
A conversion failure of any other class (e.g. `OverflowError`) instead
aborts the whole call via the outer handler. -/
theorem claim_C4 (w : World) (c : Config) (sid : String)
    (items : List String)
    (hkey : pyFalsy w.apiKey = false)
    (hop : pyLower c.operation = "download")
    (hsid : w.client.getOrCreate c.store_name = .ok sid)
    (hlist : w.client.listKeys sid = .ok items)
    (h1 : ∀ k ∈ selectedKeys items c.max_items,
      ∃ r, w.client.getRecord sid k = .ok r)
    (h2 : ∀ k ∈ selectedKeys items c.max_items,
      hasValue w sid k = true → dateCaught w k = true) :
    (execute w c).success = true ∧
    (execute w c).dates =
      ((selectedKeys items c.max_items).filter
        (fun k => hasValue w sid k)).map (dateOf w) ∧
    (∀ k, (∃ e, keyDate w k = .error e) → dateOf w k = sentinelDate) := by
  rw [execute_download hkey hop hsid hlist h1 h2]
  refine ⟨rfl, rfl, ?_⟩
  intro k hk
  obtain ⟨e, he⟩ := hk
  unfold dateOf
  rw [he]

/-- Witness for C4: the key `"²"` passes `isdigit` but `int("²")` raises
`ValueError`; its date is the sentinel while the rest of the download
completes with `success = true`. -/
theorem claim_C4_witness :
    (execute wSuper (cDl 10)).success = true ∧
    (execute wSuper (cDl 10)).dates = [sentinelDate, "ts 1000"] ∧
    dateOf wSuper "²" = sentinelDate := by
  have h := claim_C4 wSuper (cDl 10) "sid0" ["abc", "²", "1000"]
    rfl rfl rfl rfl (fun k _ => ⟨_, rfl⟩) (by decide)
  exact ⟨h.1, h.2.1.trans (by decide), h.2.2 "²" ⟨_, rfl⟩⟩

/-- Claim C7: for every result of `execute`, `data` and `dates` have equal
length; on a clean download both lists are images of the same kept-key list
in the same descending order — the i-th date is the converted timestamp of
the key whose payload is the i-th data element — and on a successful upload
`data` is the single written value and `dates` the single formatted current
time. -/
theorem claim_C7 (w : World) (c : Config) :
    (execute w c).data.length = (execute w c).dates.length ∧
    (∀ (sid : String) (items : List String),
      pyFalsy w.apiKey = false →
      pyLower c.operation = "download" →
      w.client.getOrCreate c.store_name = .ok sid →
      w.client.listKeys sid = .ok items →
      (∀ k ∈ selectedKeys items c.max_items,
        ∃ r, w.client.getRecord sid k = .ok r) →
      (∀ k ∈ selectedKeys items c.max_items,
        hasValue w sid k = true → dateCaught w k = true) →
      (execute w c).data =
        ((selectedKeys items c.max_items).filter
          (fun k => hasValue w sid k)).map
            (fun k => (recordValue w sid k).getD "") ∧
      (execute w c).dates =
        ((selectedKeys items c.max_items).filter
          (fun k => hasValue w sid k)).map (dateOf w)) ∧
    (∀ (sid v : String),
      pyFalsy w.apiKey = false →
      pyLower c.operation = "upload" →
      w.client.getOrCreate c.store_name = .ok sid →
      c.value = some v → v ≠ "" →
      w.client.setRecord sid (toString w.timeNow) v = .ok () →
      (execute w c).data = [v] ∧ (execute w c).dates = [w.nowDate]) := by
  refine ⟨?_, ?_, ?_⟩
  · rcases execute_shape w c with ⟨e, _, he⟩ | hok
    · rw [he]
    · rcases executeBody_ok_shape hok with hr | hr | hr | hr |
        ⟨vals, dates, hlen, hr⟩ <;> rw [hr] <;> try rfl
      exact hlen
  · intro sid items hkey hop hsid hlist h1 h2
    rw [execute_download hkey hop hsid hlist h1 h2]
    constructor
    · show valsOf w sid items c.max_items = _
      unfold valsOf hasValue
      exact filterMap_eq_filter_map (recordValue w sid) "" _
    · rfl
  · intro sid v hkey hop hsid hval hv hset
    rw [execute_upload hkey hop hsid hval hv hset]
    exact ⟨rfl, rfl⟩

/-- Witness for C7: on a concrete download and a concrete upload the two
lists correspond pointwise. -/
theorem claim_C7_witness :
    ((execute wSkip (cDl 10)).data =
        ((selectedKeys ["3", "2", "1"] 10).filter
          (fun k => hasValue wSkip "sid0" k)).map
            (fun k => (recordValue wSkip "sid0" k).getD "") ∧
      (execute wSkip (cDl 10)).dates =
        ((selectedKeys ["3", "2", "1"] 10).filter
          (fun k => hasValue wSkip "sid0" k)).map (dateOf wSkip)) ∧
    (execute wSkip (cUp (some "pay"))).data = ["pay"] ∧
    (execute wSkip (cUp (some "pay"))).dates = [wSkip.nowDate] :=
  ⟨(claim_C7 wSkip (cDl 10)).2.1 "sid0" ["3", "2", "1"]
      rfl rfl rfl rfl (fun k _ => ⟨_, rfl⟩) (by decide),
   (claim_C7 wSkip (cUp (some "pay"))).2.2 "sid0" "pay"
      rfl rfl rfl rfl (by decide) rfl⟩

/-- Counterexample for C8: the claim fails for keys made of non-decimal
Unicode digit characters.  The remote key `"²"` (superscript two) is not
composed of decimal digits — `Char.isDigit` is false for it, and Python's
`int("²")` raises — yet Python's `str.isdigit` accepts it, so the adapter
does not exclude it: its record's value `"y"` is returned in `data` (while
`"abc"` is excluded as the claim says). -/
theorem claim_C8_counterexample :
    (execute wSuper (cDl 10)).data = ["y", "z"] ∧
    ("²".data.all Char.isDigit) = false ∧
    pyIsDigit "²" = true := by
  refine ⟨?_, ?_, ?_⟩
  · decide
  · decide
  · decide

/-- Claim C8 (amended): for every clean download, a remote key is kept only
if Python's `str.isdigit` accepts it, so any key failing `isdigit` — every
key with a character that is not a digit character, e.g. `"abc"` — is
excluded entirely from `data` and `dates`; but keys of non-decimal Unicode
digit characters (e.g. `"²"`) pass `isdigit` and are included. -/
theorem claim_C8 (w : World) (c : Config) (sid : String)
    (items : List String)
    (hkey : pyFalsy w.apiKey = false)
    (hop : pyLower c.operation = "download")
    (hsid : w.client.getOrCreate c.store_name = .ok sid)
    (hlist : w.client.listKeys sid = .ok items)
    (h1 : ∀ k ∈ selectedKeys items c.max_items,
      ∃ r, w.client.getRecord sid k = .ok r)
    (h2 : ∀ k ∈ selectedKeys items c.max_items,
      hasValue w sid k = true → dateCaught w k = true) :
    (∀ k ∈ selectedKeys items c.max_items, pyIsDigit k = true) ∧
    (execute w c).data =
      (selectedKeys items c.max_items).filterMap (recordValue w sid) ∧
    (execute w c).dates =
      ((selectedKeys items c.max_items).filter
        (fun k => hasValue w sid k)).map (dateOf w) := by
  rw [execute_download hkey hop hsid hlist h1 h2]
  exact ⟨fun k hk => mem_selectedKeys_isdigit hk, rfl, rfl⟩

/-- Witness for C8 (amended): on the concrete store, the key `"abc"` is not
among the selected keys while `"1000"` is, and the data is exactly the
records of the isdigit keys. -/
theorem claim_C8_witness :
    pyIsDigit "1000" = true ∧
    (execute wSuper (cDl 10)).data =
      (selectedKeys ["abc", "²", "1000"] 10).filterMap
        (recordValue wSuper "sid0") := by
  have h := claim_C8 wSuper (cDl 10) "sid0" ["abc", "²", "1000"]
    rfl rfl rfl rfl (fun k _ => ⟨_, rfl⟩) (by decide)
  exact ⟨h.1 "1000" (by decide), h.2.1⟩

/-- Claim C10 (implicit): during a clean download, a selected key whose
`get_record` returns nothing, or whose record lacks a `"value"` field, is
silently skipped: nothing is appended to `data` or `dates` for it (both are
built from only the keys with a value), the call still returns
`success = true`, and the reported count in the message is the number of
records actually collected — so a download can return fewer than
`min(max_items, digit-key count)` records. -/
theorem claim_C10 (w : World) (c : Config) (sid : String)
    (items : List String)
    (hkey : pyFalsy w.apiKey = false)
    (hop : pyLower c.operation = "download")
    (hsid : w.client.getOrCreate c.store_name = .ok sid)
    (hlist : w.client.listKeys sid = .ok items)
    (h1 : ∀ k ∈ selectedKeys items c.max_items,
      ∃ r, w.client.getRecord sid k = .ok r)
    (h2 : ∀ k ∈ selectedKeys items c.max_items,
      hasValue w sid k = true → dateCaught w k = true) :
    (execute w c).success = true ∧
    (execute w c).data =
      (selectedKeys items c.max_items).filterMap (recordValue w sid) ∧
    (execute w c).dates =
      ((selectedKeys items c.max_items).filter
        (fun k => hasValue w sid k)).map (dateOf w) ∧
    (execute w c).message = msgGot (execute w c).data.length ∧
    (execute w c).data.length ≤ (selectedKeys items c.max_items).length := by
  rw [execute_download hkey hop hsid hlist h1 h2]
  exact ⟨rfl, rfl, rfl, rfl, List.length_filterMap_le _ _⟩

/-- Witness for C10: a store with three digit keys, of which one record is
absent and one lacks a value, returns a single record with `success = true`
and a message reporting count 1 — fewer than `min(max_items, 3)`. -/
theorem claim_C10_witness :
    (execute wSkip (cDl 10)).success = true ∧
    (execute wSkip (cDl 10)).data = ["x"] ∧
    (execute wSkip (cDl 10)).message = msgGot 1 ∧
    (execute wSkip (cDl 10)).data.length <
      (selectedKeys ["3", "2", "1"] 10).length := by
  have h := claim_C10 wSkip (cDl 10) "sid0" ["3", "2", "1"]
    rfl rfl rfl rfl (fun k _ => ⟨_, rfl⟩) (by decide)
  have hdata : (execute wSkip (cDl 10)).data = ["x"] := by
    rw [h.2.1]
    decide
  refine ⟨h.1, hdata, ?_, ?_⟩
  · rw [h.2.2.2.1, hdata]
    rfl
  · rw [hdata]
    decide

end ApifyKV
